import Mathlib

/- Verification development for the Deepgram live-transcription core:
   the audio conversion pipeline (`AudioDataProcessor`), the per-session
   transcript accumulator (`SessionManager` / `TranscriptionSessionManager`),
   the WebSocket reconnection policy of `DeepgramLiveTranscriber`, and the
   orchestrator lifecycle (`startSession` / `stopSession` / export).

   JavaScript strings are embedded as `List Char` (abbreviated `JStr`);
   JavaScript numbers are embedded as `ℚ` (exact for every constant that
   appears in the verified code paths) or as `Nat`/`Int` where the source
   only ever holds integers.  Mutable objects become explicit state records
   and thrown exceptions become `Except` results paired with the state the
   mutations left behind. -/

set_option maxHeartbeats 1000000

/-- JavaScript string, embedded as its list of characters. -/
abbrev JStr := List Char

/-! ## Constants (`DEEPGRAM_CONFIG` in `deepgramLiveTranscriber.js`) -/

def CHUNK_SIZE : Nat := 4096

def SILENCE_THRESHOLD : ℚ := 1/100

def MAX_RECONNECT_ATTEMPTS : Nat := 3

def RECONNECT_DELAY : Nat := 1000

/-! ## AudioDataProcessor (`deepgramLiveTranscriber.js`, class `AudioDataProcessor`) -/

/-- Embedding of `Math.max(-1, Math.min(1, x))`. -/
def clampUnit (x : ℚ) : ℚ := max (-1) (min 1 x)

/-- JavaScript `ToInt16` truncates the fractional part toward zero before
wrapping; this is the truncation step applied to a rational. -/
def jsTruncQ (q : ℚ) : Int := if 0 ≤ q then ⌊q⌋ else ⌈q⌉

/-- Wrap an integer into the signed 16-bit range, as storing into an
`Int16Array` element does. -/
def toInt16 (n : Int) : Int := (n + 32768) % 65536 - 32768

/-- One sample of `convertFloat32ToInt16`:
`int16Array[i] = Math.max(-1, Math.min(1, float32Array[i])) * 32767`, where
the `Int16Array` store truncates toward zero and wraps to 16 bits. -/
def int16SampleOf (x : ℚ) : Int := toInt16 (jsTruncQ (clampUnit x * 32767))

/-- Embedding of `AudioDataProcessor.convertFloat32ToInt16`. -/
def convertFloat32ToInt16 (float32Array : List ℚ) : List Int :=
  float32Array.map int16SampleOf

/-- JavaScript `Math.round` (half-up, i.e. toward positive infinity on ties). -/
def jsMathRound (q : ℚ) : Int := ⌊q + 1/2⌋

/-- Modelled from the spec: the conversion rule the spec claims,
`round(clamp(x,-1,1) * 32767)` applied samplewise.  Kept separate from
`convertFloat32ToInt16` (the embedding of the source) so the two can be
compared. -/
def specRoundConvert (float32Array : List ℚ) : List Int :=
  float32Array.map (fun x => jsMathRound (clampUnit x * 32767))

/-- Embedding of `AudioDataProcessor.containsSpeech`: average absolute
amplitude strictly above `SILENCE_THRESHOLD`.  (In ℚ a division by a zero
length yields `0`, matching the JavaScript `NaN > 0.01 = false` outcome for
an empty array.) -/
def containsSpeech (audioData : List ℚ) : Bool :=
  decide (SILENCE_THRESHOLD < (audioData.map (fun x => |x|)).sum / (audioData.length : ℚ))

/-- Embedding of the chunking loop in `AudioDataProcessor.addAudioData`:
`while (buffer.length >= chunkSize) chunks.push(buffer.splice(0, chunkSize))`.
Returns the extracted chunks together with the remaining buffer. -/
def extractChunks (l : List Int) : List (List Int) × List Int :=
  if _h : CHUNK_SIZE ≤ l.length then
    let rest := extractChunks (l.drop CHUNK_SIZE)
    (l.take CHUNK_SIZE :: rest.1, rest.2)
  else
    ([], l)
termination_by l.length
decreasing_by
  simp only [List.length_drop, CHUNK_SIZE] at *
  omega

/-! ## Transcript joining (`SessionManager.addTranscriptSegment` and
`TranscriptionSessionManager.#handleFinalTranscript` share this fold) -/

/-- One final-segment append on the accumulated text:
`final += (final ? ' ' : '') + segment`. -/
def joinStep (acc segment : JStr) : JStr :=
  acc ++ (if acc ≠ [] then [' '] else []) ++ segment

/-- The accumulated final text after appending a whole list of segment
texts in order, starting from the empty accumulator. -/
def joinAll (texts : List JStr) : JStr := texts.foldl joinStep []

/-- Modelled from the spec: the "space-joined concatenation" of the texts,
a single space between consecutive segments. -/
def spaceJoin : List JStr → JStr
  | [] => []
  | t :: ts => t ++ (ts.map (fun u => ' ' :: u)).flatten

/-- Whether a character list contains two consecutive spaces. -/
def hasDoubleSpace : List Char → Bool
  | c₁ :: c₂ :: rest => (c₁ = ' ' ∧ c₂ = ' ') || hasDoubleSpace (c₂ :: rest)
  | _ => false

/-! ## SessionManager transcript state (`deepgramLiveTranscriber.js`,
class `SessionManager`) and the inbound message handler
(`DeepgramLiveTranscriber.handleDeepgramMessage`) -/

/-- One entry of `transcript.segments`:
`{ text, timestamp: Date.now() - startTime, final: true }`. -/
structure Seg4 where
  text : JStr
  timestamp : Nat
  final : Bool
deriving DecidableEq, Repr

/-- The `transcript` field of `SessionManager`:
`{ interim: '', final: '', segments: [] }`. -/
structure DgTranscript where
  interim : JStr
  final : JStr
  segments : List Seg4
deriving DecidableEq, Repr

/-- The transcript as initialised by `SessionManager.startSession`. -/
def emptyDgTranscript : DgTranscript := ⟨[], [], []⟩

/-- Embedding of `SessionManager.addTranscriptSegment(segment, isFinal)`.
`ts` is the value of `Date.now() - this.startTime` at the call. -/
def addTranscriptSegment (tr : DgTranscript) (segment : JStr) (isFinal : Bool)
    (ts : Nat) : DgTranscript :=
  if isFinal then
    ⟨[], joinStep tr.final segment, tr.segments ++ [⟨segment, ts, true⟩]⟩
  else
    ⟨segment, tr.final, tr.segments⟩

/-- Embedding of `SessionManager.getFullTranscript`:
`final + (final && interim ? ' ' : '') + interim`. -/
def getFullTranscript (tr : DgTranscript) : JStr :=
  tr.final ++ (if tr.final ≠ [] ∧ tr.interim ≠ [] then [' '] else []) ++ tr.interim

/-- An inbound WebSocket message as `handleDeepgramMessage` distinguishes
them after `JSON.parse`: a `Results` message carrying
`channel.alternatives[0].transcript`, `is_final` and `confidence`; a
`Metadata` message; or anything unparseable / without an alternative. -/
inductive DgMessage where
  | results (transcript : JStr) (isFinal : Bool) (confidence : ℚ)
  | metadata
  | malformed
deriving DecidableEq, Repr

/-- Embedding of `DeepgramLiveTranscriber.handleDeepgramMessage` restricted
to its effect on the session transcript: a `Results` message updates the
transcript only when its `transcript` text is non-empty (`if (transcript)`),
every other message leaves it untouched. -/
def handleDeepgramMessage (tr : DgTranscript) (m : DgMessage) (ts : Nat) :
    DgTranscript :=
  match m with
  | .results t isFinal _ => if t ≠ [] then addTranscriptSegment tr t isFinal ts else tr
  | .metadata => tr
  | .malformed => tr

/-- Process a whole sequence of inbound messages (each paired with its
arrival offset) in order. -/
def runMessages (tr : DgTranscript) (ms : List (DgMessage × Nat)) : DgTranscript :=
  ms.foldl (fun tr p => handleDeepgramMessage tr p.1 p.2) tr

/-- The texts that the message sequence appends as final segments: the
non-empty transcripts of the final-flagged `Results` messages, in order. -/
def finalTextsOf (ms : List (DgMessage × Nat)) : List JStr :=
  ms.filterMap (fun p =>
    match p.1 with
    | .results t true _ => if t ≠ [] then some t else none
    | _ => none)

/-- The final segments that the message sequence appends, in order. -/
def finalSegsOf (ms : List (DgMessage × Nat)) : List Seg4 :=
  ms.filterMap (fun p =>
    match p.1 with
    | .results t true _ => if t ≠ [] then some ⟨t, p.2, true⟩ else none
    | _ => none)

/-! ## Audio forwarding (`DeepgramLiveTranscriber.processAudioData` /
`sendAudioChunk`, with `pauseTranscription` / `resumeTranscription`) -/

/-- The session-status enum of `deepgramLiveTranscriber.js`
(`SESSION_STATUS`); the orchestrator's `SESSION_STATES` has the same
values. -/
inductive SessionState where
  | idle
  | initializing
  | active
  | paused
  | stopping
  | error
deriving DecidableEq, Repr

/-- The part of the `DeepgramLiveTranscriber` instance that the audio path
reads and writes: the recording flag, `sessionManager.status`, whether
`websocket.readyState === WebSocket.OPEN`, and the sample buffer of its
`AudioDataProcessor`. -/
structure AudioPathState where
  isRecording : Bool
  sessionStatus : SessionState
  wsOpen : Bool
  buffer : List Int
deriving DecidableEq, Repr

/-- Embedding of `DeepgramLiveTranscriber.processAudioData`: drop the frame
unless recording and Active; drop silent frames; otherwise convert, chunk
through the shared buffer, and hand each complete chunk to
`sendAudioChunk`, which transmits only while the socket is open (a closed
socket silently discards the chunk).  Returns the updated state and the
list of chunks actually written to the socket. -/
def processAudioData (s : AudioPathState) (audioData : List ℚ) :
    AudioPathState × List (List Int) :=
  if ¬ (s.isRecording ∧ s.sessionStatus = .active) then (s, [])
  else if ¬ containsSpeech audioData then (s, [])
  else
    let int16Data := convertFloat32ToInt16 audioData
    let chunked := extractChunks (s.buffer ++ int16Data)
    ({ s with buffer := chunked.2 }, if s.wsOpen then chunked.1 else [])

/-- Embedding of `pauseTranscription`: Active becomes Paused, anything else
is left alone. -/
def pauseTranscription (s : AudioPathState) : AudioPathState :=
  if s.sessionStatus = .active then { s with sessionStatus := .paused } else s

/-- Embedding of `resumeTranscription`: Paused becomes Active, anything
else is left alone. -/
def resumeTranscription (s : AudioPathState) : AudioPathState :=
  if s.sessionStatus = .paused then { s with sessionStatus := .active } else s

/-! ## Reconnection policy (`DeepgramLiveTranscriber.connectToDeepgram`
socket handlers and `attemptReconnection`) -/

/-- The `CONNECTION_STATUS` enum. -/
inductive ConnStatus where
  | disconnected
  | connecting
  | connected
  | reconnecting
  | failed
deriving DecidableEq, Repr

/-- Reconnection bookkeeping of a `DeepgramLiveTranscriber`, instrumented
with an observation log: every value assigned to `connectionStatus` (each
assignment is immediately emitted as a `CONNECTION_STATUS` event), the
delay scheduled before each reconnect attempt, the value of
`reconnectAttempts` at each fatal `Max reconnection attempts reached`
emission, and how many close events have been handled. -/
structure ReconnState where
  reconnectAttempts : Nat
  connectionStatus : ConnStatus
  isRecording : Bool
  statusLog : List ConnStatus
  attemptDelays : List Nat
  fatalLog : List Nat
  closeCount : Nat
deriving DecidableEq, Repr

/-- Assign `connectionStatus` (and emit the corresponding
`CONNECTION_STATUS` event, recorded in the log). -/
def setConnStatus (r : ReconnState) (c : ConnStatus) : ReconnState :=
  { r with connectionStatus := c, statusLog := r.statusLog ++ [c] }

/-- Embedding of `attemptReconnection` up to the point where the timer is
armed: increment the counter, set `RECONNECTING`, and schedule the retry
after `RECONNECT_DELAY * reconnectAttempts` milliseconds. -/
def attemptReconnection (r : ReconnState) : ReconnState :=
  let r₁ := { r with reconnectAttempts := r.reconnectAttempts + 1 }
  let r₂ := setConnStatus r₁ .reconnecting
  { r₂ with attemptDelays := r₂.attemptDelays ++ [RECONNECT_DELAY * r₂.reconnectAttempts] }

/-- Embedding of the `websocket.onclose` handler: set `DISCONNECTED`, then
reconnect only while still recording and under the attempt cap. -/
def wsOnClose (r : ReconnState) : ReconnState :=
  let r₁ := setConnStatus { r with closeCount := r.closeCount + 1 } .disconnected
  if r₁.isRecording ∧ r₁.reconnectAttempts < MAX_RECONNECT_ATTEMPTS then
    attemptReconnection r₁
  else
    r₁

/-- Embedding of the `websocket.onerror` handler: set `FAILED` and reject
the pending `connectToDeepgram` promise. -/
def wsOnError (r : ReconnState) : ReconnState :=
  setConnStatus r .failed

/-- Embedding of the `catch` inside `attemptReconnection`'s timer callback:
when the retried `connectToDeepgram` rejects, surface the fatal error if and
only if the attempt cap has been reached. -/
def reconnectCatch (r : ReconnState) : ReconnState :=
  if MAX_RECONNECT_ATTEMPTS ≤ r.reconnectAttempts then
    { r with fatalLog := r.fatalLog ++ [r.reconnectAttempts] }
  else
    r

/-- One failed reconnect attempt, in browser event order: the handshake
error fires `onerror` (rejecting the promise), the rejection runs the
timer callback's `catch`, and then the socket's `onclose` fires. -/
def failedRetry (r : ReconnState) : ReconnState :=
  wsOnClose (reconnectCatch (wsOnError r))

/-- Drive the scenario in which every scheduled reconnect attempt fails,
until no further attempt is pending (fuel-bounded recursion). -/
def runAllRetriesFailing : Nat → ReconnState → ReconnState
  | 0, r => r
  | fuel + 1, r =>
      if r.connectionStatus = .reconnecting then
        runAllRetriesFailing fuel (failedRetry r)
      else
        r

/-- A live connection mid-session: connected, recording, no retries yet,
empty logs. -/
def connectedReconnState : ReconnState :=
  ⟨0, .connected, true, [], [], [], 0⟩

/-! ## Orchestrator (`transcriptionSessionManager.js`,
class `TranscriptionSessionManager`) -/

/-- The `#stats` record of `TranscriptionSessionManager`. -/
structure MgrStats where
  startTime : Option Nat
  endTime : Option Nat
  wordCount : Nat
  interimCount : Nat
  errorCount : Nat
deriving DecidableEq, Repr

/-- One entry of the orchestrator's `#transcript.final` list:
`{ text, timestamp: Date.now(), confidence: metadata.confidence }`. -/
structure Segment where
  text : JStr
  timestamp : Nat
  confidence : ℚ
deriving DecidableEq, Repr

/-- The `#transcript` record: current interim text, ordered final-segment
list, and the accumulated full text. -/
structure MgrTranscript where
  interim : JStr
  final : List Segment
  full : JStr
deriving DecidableEq, Repr

/-- Value of `#resetTranscript`. -/
def emptyMgrTranscript : MgrTranscript := ⟨[], [], []⟩

/-- Value of `#resetStats`. -/
def initialMgrStats : MgrStats := ⟨none, none, 0, 0, 0⟩

/-- The orchestrator state the verified operations touch.  `enableSounds`
is the `#config.enableSounds` flag (default `true`); `hasTranscriber`
records whether `#transcriber` is non-null.  Session ids are drawn from
`Nat` (the generator's output is opaque to the logic). -/
structure Mgr where
  state : SessionState
  sessionId : Option Nat
  enableSounds : Bool
  stats : MgrStats
  transcript : MgrTranscript
  hasTranscriber : Bool
deriving DecidableEq, Repr

/-- The exceptions the modelled operations can propagate.
`refErrorPlaySound` is the `ReferenceError` raised by calling `playSound`,
which `transcriptionSessionManager.js` never imports (it imports only
`playNotificationSound`); `invalidState` models
`Error('Cannot start session from state: ...')` (the spec's
`InvalidStateError`); `configError` models
`Error('Deepgram API key not configured...')`; the transcriber errors
stand for whatever rejection `#transcriber.start()` / `stop()` produced. -/
inductive JsError where
  | refErrorPlaySound
  | invalidState (s : SessionState)
  | configError
  | transcriberStartFailure
  | transcriberStopFailure
deriving DecidableEq, Repr

/-- Embedding of `#setState` (the emitted `STATE_CHANGED` event carries no
further state change). -/
def setState (m : Mgr) (st : SessionState) : Mgr := { m with state := st }

/-- Embedding of `#handleError`: it logs, then — when sounds are enabled —
calls the undefined identifier `playSound('error')`, which raises a
`ReferenceError` that aborts the handler and propagates to its caller;
with sounds disabled it only logs and emits `ERROR_OCCURRED`. -/
def handleError (m : Mgr) : Except JsError Unit :=
  if m.enableSounds then .error .refErrorPlaySound else .ok ()

/-- JavaScript truthiness of an optional number (`null`/`undefined` and `0`
are falsy). -/
def jsTruthyNat : Option Nat → Bool
  | none => false
  | some n => decide (n ≠ 0)

/-- Embedding of `x || d` for an optional number `x`. -/
def jsOrElseNat (o : Option Nat) (d : Nat) : Nat :=
  match o with
  | some n => if n ≠ 0 then n else d
  | none => d

/-- Embedding of `getSessionDuration` at wall-clock time `now`. -/
def getSessionDuration (m : Mgr) (now : Nat) : Nat :=
  match m.stats.startTime with
  | none => 0
  | some st => if st = 0 then 0 else jsOrElseNat m.stats.endTime now - st

/-- The object `#buildSessionSummary` returns. -/
structure SessionSummary where
  sessionId : Option Nat
  duration : Nat
  transcript : JStr
  segments : List Segment
  endedAt : Nat
deriving DecidableEq, Repr

/-- Embedding of `#buildSessionSummary` at wall-clock time `now`. -/
def buildSessionSummary (m : Mgr) (now : Nat) : SessionSummary :=
  ⟨m.sessionId, getSessionDuration m now, m.transcript.full, m.transcript.final, now⟩

/-- Embedding of `startSession`.  `hasApiKey` is whether the build-time
`DEEPGRAM_API_KEY` is present, `freshId` the value `#generateSessionId`
returns, `startOk` whether `#transcriber.start()` resolves, `now` the
wall-clock time.  Returns the result (session id or propagated exception)
together with the state the mutations left behind. -/
def startSession (m : Mgr) (hasApiKey : Bool) (freshId : Nat) (startOk : Bool)
    (now : Nat) : Except JsError Nat × Mgr :=
  if m.state ≠ .idle then (.error (.invalidState m.state), m)
  else if ¬ hasApiKey then (.error .configError, m)
  else
    let m₁ := setState m .initializing
    let m₂ := { m₁ with sessionId := some freshId }
    let m₃ := { m₂ with hasTranscriber := true }
    if startOk then
      let m₄ := { m₃ with stats := initialMgrStats, transcript := emptyMgrTranscript }
      let m₅ := { m₄ with stats := { m₄.stats with startTime := some now } }
      let m₆ := setState m₅ .active
      (.ok freshId, m₆)
    else
      let m₄ := setState m₃ .error
      match handleError m₄ with
      | .error e => (.error e, m₄)
      | .ok _ => (.error .transcriberStartFailure, m₄)

/-- Embedding of `stopSession`.  `stopOk` is whether `#transcriber.stop()`
resolves, `now` the wall-clock time.  The success path calls the undefined
`playSound('deactivated')` when sounds are enabled; the resulting
`ReferenceError` lands in the `catch` block, whose `#handleError` call
raises the same `ReferenceError` again before `#setState(IDLE)` can run. -/
def stopSession (m : Mgr) (stopOk : Bool) (now : Nat) :
    Except JsError (Option SessionSummary) × Mgr :=
  if m.state = .idle then (.ok none, m)
  else
    let m₁ := setState m .stopping
    let summary := buildSessionSummary m₁ now
    if m₁.hasTranscriber ∧ ¬ stopOk then
      match handleError m₁ with
      | .error e => (.error e, m₁)
      | .ok _ => (.ok none, setState m₁ .idle)
    else
      let m₂ := { m₁ with hasTranscriber := false }
      let m₃ := { m₂ with stats := { m₂.stats with endTime := some now } }
      if m₃.enableSounds then
        match handleError m₃ with
        | .error e => (.error e, m₃)
        | .ok _ => (.ok none, setState m₃ .idle)
      else
        let m₄ := setState m₃ .idle
        let m₅ := { m₄ with sessionId := none }
        (.ok (some summary), m₅)

/-! ## JSON export (`TranscriptionSessionManager.exportTranscript`,
`format = 'json'`) -/

/-- A JSON value.  `JSON.stringify` / `JSON.parse` are the runtime's exact
inverse pair on this value domain, so the export round trip is verified at
the level of the value tree `JSON.stringify` serialises. -/
inductive Json where
  | null
  | bool (b : Bool)
  | num (q : ℚ)
  | str (s : JStr)
  | arr (elements : List Json)
  | obj (fields : List (JStr × Json))

def kTranscript : JStr := ['t', 'r', 'a', 'n', 's', 'c', 'r', 'i', 'p', 't']

def kMetadata : JStr := ['m', 'e', 't', 'a', 'd', 'a', 't', 'a']

def kSegments : JStr := ['s', 'e', 'g', 'm', 'e', 'n', 't', 's']

def kSessionId : JStr := ['s', 'e', 's', 's', 'i', 'o', 'n', 'I', 'd']

def kStartTime : JStr := ['s', 't', 'a', 'r', 't', 'T', 'i', 'm', 'e']

def kEndTime : JStr := ['e', 'n', 'd', 'T', 'i', 'm', 'e']

def kWordCount : JStr := ['w', 'o', 'r', 'd', 'C', 'o', 'u', 'n', 't']

def kText : JStr := ['t', 'e', 'x', 't']

def kTimestamp : JStr := ['t', 'i', 'm', 'e', 's', 't', 'a', 'm', 'p']

def kConfidence : JStr := ['c', 'o', 'n', 'f', 'i', 'd', 'e', 'n', 'c', 'e']

/-- A possibly-null number field (`null` serialises as JSON `null`). -/
def jsonOfOptNat : Option Nat → Json
  | none => .null
  | some n => .num n

/-- The JSON object one final segment serialises to. -/
def segmentToJson (s : Segment) : Json :=
  .obj [(kText, .str s.text), (kTimestamp, .num s.timestamp), (kConfidence, .num s.confidence)]

/-- Embedding of `exportTranscript('json')`: the value tree passed to
`JSON.stringify({ transcript, metadata, segments }, null, 2)`, with
`metadata = { sessionId, startTime, endTime: endTime || Date.now(),
wordCount }` and `segments = #transcript.final`. -/
def exportTranscriptJson (m : Mgr) (now : Nat) : Json :=
  .obj
    [ (kTranscript, .str m.transcript.full),
      (kMetadata, .obj
        [ (kSessionId, jsonOfOptNat m.sessionId),
          (kStartTime, jsonOfOptNat m.stats.startTime),
          (kEndTime, .num (jsOrElseNat m.stats.endTime now)),
          (kWordCount, .num m.stats.wordCount) ]),
      (kSegments, .arr (m.transcript.final.map segmentToJson)) ]

/-- Field access on a parsed JSON object. -/
def jlookup : List (JStr × Json) → JStr → Option Json
  | [], _ => none
  | (k, v) :: rest, key => if k = key then some v else jlookup rest key

/-- Read a JSON number back as the natural number it came from. -/
def jsonToNat : Json → Option Nat
  | .num q => if q.den = 1 ∧ 0 ≤ q.num then some q.num.toNat else none
  | _ => none

/-- Re-parse one exported segment object. -/
def decodeSegment (j : Json) : Option Segment :=
  match j with
  | .obj fields =>
      match jlookup fields kText, jsonToNat <$> jlookup fields kTimestamp,
          jlookup fields kConfidence with
      | some (.str t), some (some ts), some (.num c) => some ⟨t, ts, c⟩
      | _, _, _ => none
  | _ => none

/-- Re-parse an exported transcript: the `transcript` string and the
ordered `segments` list, exactly what the round-trip property compares. -/
def decodeExport (j : Json) : Option (JStr × List Segment) :=
  match j with
  | .obj fields =>
      match jlookup fields kTranscript, jlookup fields kSegments with
      | some (.str t), some (.arr segs) =>
          match segs.mapM decodeSegment with
          | some l => some (t, l)
          | none => none
      | _, _ => none
  | _ => none

/-! ## Concrete fixtures used by the closed instances below -/

/-- The scenario of the spec's reconnection test: an abnormal close on a
live recording connection, followed by every scheduled retry failing. -/
def failingScenarioRun : ReconnState :=
  runAllRetriesFailing 10 (wsOnClose connectedReconnState)

/-- The state right after the first retry's handshake error fires
`onerror` (one abnormal close, one scheduled attempt, attempt fails). -/
def firstRetryErrorState : ReconnState :=
  wsOnError (wsOnClose connectedReconnState)

/-- A message sequence: final "hi", interim "yo", final "ok". -/
def c1WitnessMsgs : List (DgMessage × Nat) :=
  [(.results ['h', 'i'] true 1, 3), (.results ['y', 'o'] false 1, 4),
   (.results ['o', 'k'] true 1, 5)]

/-- A mid-message transcript: pending interim "h", one final segment. -/
def interimTrW : DgTranscript := ⟨['h'], ['p'], [⟨['p'], 1, true⟩]⟩

/-- An orchestrator with an Active session and sounds enabled (the default
configuration). -/
def activeMgrSounds : Mgr :=
  ⟨.active, some 7, true, ⟨some 100, none, 4, 2, 0⟩,
   ⟨['h'], [⟨['h', 'i'], 120, 1⟩], ['h', 'i']⟩, true⟩

/-- The same Active session with sounds disabled. -/
def activeMgrQuiet : Mgr :=
  ⟨.active, some 7, false, ⟨some 100, none, 4, 2, 0⟩,
   ⟨['h'], [⟨['h', 'i'], 120, 1⟩], ['h', 'i']⟩, true⟩

/-- An orchestrator stranded in the Error state with leftover transcript. -/
def errorMgrW : Mgr :=
  ⟨.error, some 3, true, ⟨some 10, none, 2, 1, 1⟩,
   ⟨[], [⟨['o', 'k'], 15, 1⟩], ['o', 'k']⟩, true⟩

/-- An Idle orchestrator still holding the previous session's transcript
and statistics. -/
def dirtyIdleMgrW : Mgr :=
  ⟨.idle, some 4, true, ⟨some 10, some 20, 5, 6, 7⟩,
   ⟨['i'], [⟨['a'], 11, 1⟩], ['a']⟩, false⟩

/-- The audio path of a paused session with an open socket. -/
def pausedAudioW : AudioPathState := ⟨true, .paused, true, []⟩

/-- The audio path of an active session whose socket is not open. -/
def activeClosedAudioW : AudioPathState := ⟨true, .active, false, []⟩

/-- The audio path of an active session with an open socket. -/
def activeOpenAudioW : AudioPathState := ⟨true, .active, true, []⟩

/-- One full frame of silence. -/
def silentFrameW : List ℚ := List.replicate CHUNK_SIZE 0

/-- One full frame well above the silence threshold. -/
def loudFrameW : List ℚ := List.replicate CHUNK_SIZE (1/2)

theorem extractChunks_nil : extractChunks [] = ([], []) := by
  rw [extractChunks]
  simp [CHUNK_SIZE]

theorem extractChunks_of_length_eq (l : List Int) (h : l.length = CHUNK_SIZE) :
    extractChunks l = ([l], []) := by
  rw [extractChunks]
  rw [dif_pos (le_of_eq h.symm)]
  rw [← h, List.take_length, List.drop_length, extractChunks_nil]

theorem spaceJoin_cons_cons (t u : JStr) (ts : List JStr) :
    spaceJoin (t :: u :: ts) = t ++ ' ' :: spaceJoin (u :: ts) := by
  simp [spaceJoin]

theorem foldl_joinStep_ne_nil (ts : List JStr) (acc : JStr) (h : acc ≠ []) :
    ts.foldl joinStep acc = acc ++ (ts.map (fun u => ' ' :: u)).flatten := by
  induction ts generalizing acc with
  | nil => simp
  | cons t ts ih =>
      have hstep : joinStep acc t = acc ++ ' ' :: t := by
        simp [joinStep, h]
      rw [List.foldl_cons, hstep, ih _ (by simp)]
      simp

/-- For segment-text lists whose first text is non-empty, the source fold
equals the spec's space-join. -/
theorem joinAll_eq_spaceJoin (ts : List JStr)
    (h : ∀ t ∈ ts, t ≠ []) : joinAll ts = spaceJoin ts := by
  cases ts with
  | nil => rfl
  | cons t ts =>
      have ht : t ≠ [] := h t (by simp)
      have hstep : joinStep [] t = t := by simp [joinStep]
      rw [joinAll, List.foldl_cons, hstep, foldl_joinStep_ne_nil ts t ht]
      simp [spaceJoin]

/-! ### Space hygiene of the join -/

theorem head?_append_of_ne_nil (l₁ l₂ : List Char) (h : l₁ ≠ []) :
    (l₁ ++ l₂).head? = l₁.head? := by
  cases l₁ with
  | nil => exact absurd rfl h
  | cons c t => rfl

theorem spaceJoin_ne_nil (t : JStr) (ts : List JStr) (h : t ≠ []) :
    spaceJoin (t :: ts) ≠ [] := by
  cases t with
  | nil => exact absurd rfl h
  | cons c u => simp [spaceJoin]

theorem head?_spaceJoin (t : JStr) (ts : List JStr) (h : t ≠ []) :
    (spaceJoin (t :: ts)).head? = t.head? := by
  simp only [spaceJoin]
  exact head?_append_of_ne_nil t _ h

theorem getLast?_spaceJoin (t : JStr) (ts : List JStr)
    (h : ∀ u ∈ t :: ts, u ≠ []) :
    (spaceJoin (t :: ts)).getLast? = ((t :: ts).getLast (by simp)).getLast? := by
  induction ts generalizing t with
  | nil => simp [spaceJoin]
  | cons u ts ih =>
      have hu : u ≠ [] := h u (by simp)
      have hrec := ih u (fun v hv => h v (by simp at hv ⊢; tauto))
      rw [spaceJoin_cons_cons]
      have hne : (' ' :: spaceJoin (u :: ts) : List Char) ≠ [] := by simp
      rw [List.getLast?_append_of_ne_nil t hne]
      have hne₂ : spaceJoin (u :: ts) ≠ [] := spaceJoin_ne_nil u ts hu
      have hsplit : (' ' :: spaceJoin (u :: ts)) = [' '] ++ spaceJoin (u :: ts) := rfl
      rw [hsplit, List.getLast?_append_of_ne_nil [' '] hne₂, hrec]
      simp

theorem hasDoubleSpace_cons_space (l : List Char)
    (hh : l.head? ≠ some ' ') (hd : hasDoubleSpace l = false) :
    hasDoubleSpace (' ' :: l) = false := by
  cases l with
  | nil => rfl
  | cons c t =>
      have hc : ¬ c = ' ' := by simpa using hh
      simp [hasDoubleSpace, hc] at hd ⊢
      exact hd

theorem hasDoubleSpace_append_eq_false (l₁ l₂ : List Char)
    (h₁ : hasDoubleSpace l₁ = false) (h₂ : hasDoubleSpace l₂ = false)
    (hb : l₁.getLast? = some ' ' → l₂.head? ≠ some ' ') :
    hasDoubleSpace (l₁ ++ l₂) = false := by
  induction l₁ with
  | nil => simpa using h₂
  | cons c t ih =>
      cases t with
      | nil =>
          cases l₂ with
          | nil => simpa using h₁
          | cons d u =>
              simp only [List.cons_append, List.nil_append]
              simp only [hasDoubleSpace]
              simp only [List.getLast?_singleton] at hb
              by_cases hc : c = ' '
              · have hd : ¬ d = ' ' := by
                  have := hb (by rw [hc])
                  simpa using this
                simp [hc, hd, h₂]
              · simp [hc, h₂]
      | cons c₂ t₂ =>
          simp only [hasDoubleSpace, Bool.or_eq_false_iff] at h₁
          have hlast : (c :: c₂ :: t₂).getLast? = (c₂ :: t₂).getLast? :=
            List.getLast?_cons_cons ..
          rw [hlast] at hb
          have := ih h₁.2 hb
          simp only [List.cons_append] at this ⊢
          simp only [hasDoubleSpace, Bool.or_eq_false_iff] at this ⊢
          refine ⟨?_, this⟩
          · have := h₁.1
            simpa using this

theorem hasDoubleSpace_spaceJoin (ts : List JStr)
    (h : ∀ t ∈ ts, t ≠ [] ∧ t.head? ≠ some ' ' ∧ t.getLast? ≠ some ' ' ∧
        hasDoubleSpace t = false) :
    hasDoubleSpace (spaceJoin ts) = false := by
  induction ts with
  | nil => rfl
  | cons t ts ih =>
      obtain ⟨hne, hh, hl, hd⟩ := h t (by simp)
      cases ts with
      | nil => simpa [spaceJoin] using hd
      | cons u ts' =>
          obtain ⟨hune, huh, _, _⟩ := h u (by simp)
          have hrest : hasDoubleSpace (spaceJoin (u :: ts')) = false :=
            ih (fun v hv => h v (by simp at hv ⊢; tauto))
          rw [spaceJoin_cons_cons]
          refine hasDoubleSpace_append_eq_false t _ hd ?_ ?_
          · refine hasDoubleSpace_cons_space _ ?_ hrest
            rw [head?_spaceJoin u ts' hune]
            exact huh
          · intro hcontra
            exact absurd hcontra hl

theorem runMessages_final (ms : List (DgMessage × Nat)) (tr : DgTranscript) :
    (runMessages tr ms).final = (finalTextsOf ms).foldl joinStep tr.final := by
  induction ms generalizing tr with
  | nil => rfl
  | cons p ms ih =>
      obtain ⟨m, ts⟩ := p
      cases m with
      | results t isFinal c =>
          cases isFinal with
          | true =>
              by_cases ht : t = []
              · subst ht
                simpa [runMessages, handleDeepgramMessage, finalTextsOf] using ih tr
              · have := ih (addTranscriptSegment tr t true ts)
                simpa [runMessages, handleDeepgramMessage, finalTextsOf, ht,
                  addTranscriptSegment] using this
          | false =>
              by_cases ht : t = []
              · subst ht
                simpa [runMessages, handleDeepgramMessage, finalTextsOf] using ih tr
              · have := ih (addTranscriptSegment tr t false ts)
                simpa [runMessages, handleDeepgramMessage, finalTextsOf, ht,
                  addTranscriptSegment] using this
      | metadata => simpa [runMessages, handleDeepgramMessage, finalTextsOf] using ih tr
      | malformed => simpa [runMessages, handleDeepgramMessage, finalTextsOf] using ih tr

theorem runMessages_segments (ms : List (DgMessage × Nat)) (tr : DgTranscript) :
    (runMessages tr ms).segments = tr.segments ++ finalSegsOf ms := by
  induction ms generalizing tr with
  | nil => simp [runMessages, finalSegsOf]
  | cons p ms ih =>
      obtain ⟨m, ts⟩ := p
      cases m with
      | results t isFinal c =>
          cases isFinal with
          | true =>
              by_cases ht : t = []
              · subst ht
                simpa [runMessages, handleDeepgramMessage, finalSegsOf] using ih tr
              · have := ih (addTranscriptSegment tr t true ts)
                simpa [runMessages, handleDeepgramMessage, finalSegsOf, ht,
                  addTranscriptSegment] using this
          | false =>
              by_cases ht : t = []
              · subst ht
                simpa [runMessages, handleDeepgramMessage, finalSegsOf] using ih tr
              · have := ih (addTranscriptSegment tr t false ts)
                simpa [runMessages, handleDeepgramMessage, finalSegsOf, ht,
                  addTranscriptSegment] using this
      | metadata => simpa [runMessages, handleDeepgramMessage, finalSegsOf] using ih tr
      | malformed => simpa [runMessages, handleDeepgramMessage, finalSegsOf] using ih tr

theorem finalSegsOf_map_text (ms : List (DgMessage × Nat)) :
    (finalSegsOf ms).map Seg4.text = finalTextsOf ms := by
  induction ms with
  | nil => rfl
  | cons p ms ih =>
      obtain ⟨m, ts⟩ := p
      cases m with
      | results t isFinal c =>
          cases isFinal with
          | true =>
              by_cases ht : t = []
              · simpa [finalSegsOf, finalTextsOf, ht] using ih
              · simpa [finalSegsOf, finalTextsOf, ht] using ih
          | false => simpa [finalSegsOf, finalTextsOf] using ih
      | metadata => simpa [finalSegsOf, finalTextsOf] using ih
      | malformed => simpa [finalSegsOf, finalTextsOf] using ih

theorem finalTextsOf_ne_nil (ms : List (DgMessage × Nat)) :
    ∀ t ∈ finalTextsOf ms, t ≠ [] := by
  intro t ht
  rw [finalTextsOf, List.mem_filterMap] at ht
  obtain ⟨p, _, hp⟩ := ht
  cases hm : p.1 with
  | results u isFinal c =>
      rw [hm] at hp
      cases isFinal with
      | true =>
          by_cases hu : u = []
          · simp [hu] at hp
          · simp [hu] at hp
            subst hp
            exact hu
      | false => simp at hp
  | metadata => rw [hm] at hp; simp at hp
  | malformed => rw [hm] at hp; simp at hp

theorem jsonToNat_natCast (n : Nat) : jsonToNat (.num (n : ℚ)) = some n := by
  simp [jsonToNat]

theorem decodeSegment_segmentToJson (s : Segment) :
    decodeSegment (segmentToJson s) = some s := by
  have h₁ : ¬ (kText = kTimestamp) := by decide
  have h₂ : ¬ (kText = kConfidence) := by decide
  have h₃ : ¬ (kTimestamp = kConfidence) := by decide
  simp only [decodeSegment, segmentToJson, jlookup, if_pos rfl, if_neg h₁, if_neg h₂,
    if_neg h₃, Option.map_some', jsonToNat_natCast, if_true, eq_self_iff_true]
  simp [jsonToNat_natCast]

theorem mapM_decodeSegment (l : List Segment) :
    (l.map segmentToJson).mapM decodeSegment = some l := by
  induction l with
  | nil => rfl
  | cons s l ih =>
      rw [List.map_cons, List.mapM_cons, decodeSegment_segmentToJson, ih]
      rfl

/-! ## Further helper lemmas -/

theorem startSession_not_idle (m : Mgr) (hasApiKey : Bool) (freshId : Nat)
    (startOk : Bool) (now : Nat) (h : m.state ≠ .idle) :
    startSession m hasApiKey freshId startOk now = (.error (.invalidState m.state), m) := by
  simp [startSession, h]

theorem length_convertFloat32ToInt16 (l : List ℚ) :
    (convertFloat32ToInt16 l).length = l.length := by
  simp [convertFloat32ToInt16]

theorem processAudioData_live (s : AudioPathState) (frame : List ℚ)
    (hbuf : s.buffer = []) (hlen : frame.length = CHUNK_SIZE)
    (hrec : s.isRecording = true) (hact : s.sessionStatus = .active)
    (hsp : containsSpeech frame = true) :
    processAudioData s frame =
      ({ s with buffer := [] },
       if s.wsOpen then [convertFloat32ToInt16 frame] else []) := by
  have hclen : (convertFloat32ToInt16 frame).length = CHUNK_SIZE := by
    rw [length_convertFloat32ToInt16, hlen]
  have hchunks := extractChunks_of_length_eq _ hclen
  simp [processAudioData, hrec, hact, hsp, hbuf, hchunks]

theorem containsSpeech_loudFrameW : containsSpeech loudFrameW = true := by
  have habs : |(1/2 : ℚ)| = 1/2 := by
    rw [abs_of_pos]
    norm_num
  norm_num [containsSpeech, loudFrameW, List.sum_replicate, CHUNK_SIZE, SILENCE_THRESHOLD,
    habs]

theorem length_silentFrameW : silentFrameW.length = CHUNK_SIZE := by
  simp [silentFrameW]

theorem length_loudFrameW : loudFrameW.length = CHUNK_SIZE := by
  simp [loudFrameW]

/-! ## Claim theorems -/

/-- C1, counterexample.  As stated the claim is false: appending the final
segment "a" and then a final segment with empty text leaves the
accumulated final transcript equal to "a " — the `final ? ' ' : ''`
separator is added because the accumulator is non-empty, so the empty
segment produces a trailing space (and a further segment would produce a
double space), contradicting "no leading or trailing space and no double
space even when some appended segment's text is the empty string". -/
theorem C1_empty_segment_breaks_join :
    (addTranscriptSegment (addTranscriptSegment emptyDgTranscript ['a'] true 0)
        [] true 1).final = ['a', ' '] ∧
    (['a', ' '] : JStr).getLast? = some ' ' := by
  decide

/-- C1 (amended): for every inbound message sequence, the non-empty final
transcripts are exactly what gets appended (the handler drops empty
transcripts, so an empty segment text is never appended, and interim
messages never enter the final-segment list), the accumulated final text
is their space-joined concatenation in append order, and — provided no
segment's own text starts or ends with a space or contains a double
space — the accumulated text has no leading space, no trailing space and
no double space. -/
theorem C1_final_join_amended (ms : List (DgMessage × Nat))
    (hclean : ∀ t ∈ finalTextsOf ms,
      t.head? ≠ some ' ' ∧ t.getLast? ≠ some ' ' ∧ hasDoubleSpace t = false) :
    (∀ t ∈ finalTextsOf ms, t ≠ []) ∧
    (runMessages emptyDgTranscript ms).final = spaceJoin (finalTextsOf ms) ∧
    (runMessages emptyDgTranscript ms).segments.map Seg4.text = finalTextsOf ms ∧
    (runMessages emptyDgTranscript ms).final.head? ≠ some ' ' ∧
    (runMessages emptyDgTranscript ms).final.getLast? ≠ some ' ' ∧
    hasDoubleSpace (runMessages emptyDgTranscript ms).final = false := by
  have hne := finalTextsOf_ne_nil ms
  have hfin : (runMessages emptyDgTranscript ms).final = spaceJoin (finalTextsOf ms) := by
    rw [runMessages_final]
    exact joinAll_eq_spaceJoin _ hne
  have hseg : (runMessages emptyDgTranscript ms).segments.map Seg4.text
      = finalTextsOf ms := by
    rw [runMessages_segments, emptyDgTranscript]
    simpa using finalSegsOf_map_text ms
  have hhead : (runMessages emptyDgTranscript ms).final.head? ≠ some ' ' := by
    rw [hfin]
    cases hts : finalTextsOf ms with
    | nil => simp [spaceJoin]
    | cons t ts =>
        have hmem : t ∈ finalTextsOf ms := by rw [hts]; exact List.mem_cons_self t ts
        rw [head?_spaceJoin t ts (hne t hmem)]
        exact (hclean t hmem).1
  have hlast : (runMessages emptyDgTranscript ms).final.getLast? ≠ some ' ' := by
    rw [hfin]
    cases hts : finalTextsOf ms with
    | nil => simp [spaceJoin]
    | cons t ts =>
        have hall : ∀ u ∈ t :: ts, u ≠ [] := by rw [← hts]; exact hne
        rw [getLast?_spaceJoin t ts hall]
        have hLmem : (t :: ts).getLast (by simp) ∈ finalTextsOf ms := by
          rw [hts]
          exact List.getLast_mem _
        exact (hclean _ hLmem).2.1
  have hdbl : hasDoubleSpace (runMessages emptyDgTranscript ms).final = false := by
    rw [hfin]
    refine hasDoubleSpace_spaceJoin _ (fun t htm => ?_)
    exact ⟨hne t htm, (hclean t htm).1, (hclean t htm).2.1, (hclean t htm).2.2⟩
  exact ⟨hne, hfin, hseg, hhead, hlast, hdbl⟩

/-- C1, witness: the amended theorem applied to a concrete sequence of two
final messages with an interim message in between. -/
theorem C1_final_join_amended_witness :
    (∀ t ∈ finalTextsOf c1WitnessMsgs, t ≠ []) ∧
    (runMessages emptyDgTranscript c1WitnessMsgs).final =
      spaceJoin (finalTextsOf c1WitnessMsgs) ∧
    (runMessages emptyDgTranscript c1WitnessMsgs).segments.map Seg4.text =
      finalTextsOf c1WitnessMsgs ∧
    (runMessages emptyDgTranscript c1WitnessMsgs).final.head? ≠ some ' ' ∧
    (runMessages emptyDgTranscript c1WitnessMsgs).final.getLast? ≠ some ' ' ∧
    hasDoubleSpace (runMessages emptyDgTranscript c1WitnessMsgs).final = false :=
  C1_final_join_amended c1WitnessMsgs (by decide)

/-- C2, counterexample.  As stated the claim is false: after the very
first abnormal close, the first scheduled retry's handshake failure
already drives `connectionStatus` to `FAILED` in the `onerror` handler —
with the attempt counter at 1 (of 3) and no fatal error surfaced yet — so
the connection does not transition to Failed "only after the Nth retry
fails and never before". -/
theorem C2_failed_status_before_last_retry :
    firstRetryErrorState.connectionStatus = .failed ∧
    firstRetryErrorState.reconnectAttempts = 1 ∧
    firstRetryErrorState.fatalLog = [] := by
  decide

/-- C2 (amended): with `MAX_RECONNECT_ATTEMPTS = 3`, across 3 + 1
consecutive abnormal closes exactly 3 reconnect attempts occur, the delay
before attempt k is `RECONNECT_DELAY * k`, and the fatal
"Max reconnection attempts reached" error is surfaced exactly once, when
the attempt counter stands at 3 — after the last retry fails and never
before; however the status is set to `FAILED` transiently by the socket
error handler on every failed retry (three times), and after the final
abnormal close the connection rests at `DISCONNECTED`, not `FAILED`. -/
theorem C2_reconnection_schedule_amended :
    failingScenarioRun.attemptDelays =
      [RECONNECT_DELAY * 1, RECONNECT_DELAY * 2, RECONNECT_DELAY * 3] ∧
    failingScenarioRun.reconnectAttempts = MAX_RECONNECT_ATTEMPTS ∧
    failingScenarioRun.closeCount = MAX_RECONNECT_ATTEMPTS + 1 ∧
    failingScenarioRun.fatalLog = [MAX_RECONNECT_ATTEMPTS] ∧
    failingScenarioRun.statusLog.count .failed = MAX_RECONNECT_ATTEMPTS ∧
    failingScenarioRun.connectionStatus = .disconnected := by
  decide

/-- C3, code bug, evaluated at the failing input.  With the default
configuration (`enableSounds: true`), `stopSession` on an Active session
reaches `playSound('deactivated')` — an identifier the module never
imports (it imports `playNotificationSound`) — so a `ReferenceError` is
raised; the `catch` block's `#handleError` then calls the equally
undefined `playSound('error')`, so the `ReferenceError` escapes
`stopSession` before `#setState(IDLE)` runs, leaving the state Stopping.
With sounds disabled the claimed idempotency does hold: the first call
returns the summary, the repeated call returns null, and neither throws. -/
theorem C3_stopSession_playSound_referenceError :
    (stopSession activeMgrSounds true 200).1 = .error .refErrorPlaySound ∧
    (stopSession activeMgrSounds true 200).2.state = .stopping ∧
    (stopSession (stopSession activeMgrSounds true 200).2 true 300).1 =
      .error .refErrorPlaySound ∧
    (stopSession activeMgrQuiet true 200).1 =
      .ok (some (buildSessionSummary (setState activeMgrQuiet .stopping) 200)) ∧
    (stopSession activeMgrQuiet true 200).2.state = .idle ∧
    (stopSession (stopSession activeMgrQuiet true 200).2 true 300).1 = .ok none := by
  refine ⟨rfl, rfl, rfl, rfl, rfl, rfl⟩

/-- C4, counterexample.  As stated the claim is false: with the session
state `Error`, `startSession` does not start a fresh session — the
Idle-only guard rejects it with the `InvalidStateError`
(`Cannot start session from state: error`) and leaves the whole
orchestrator state unchanged. -/
theorem C4_startSession_from_error_rejected :
    startSession errorMgrW true 9 true 500 =
      (.error (.invalidState .error), errorMgrW) := by
  rfl

/-- C4 (amended): after an unrecoverable error leaves the session state in
Error, calling `startSession` does not recover: it fails with the
`InvalidStateError` and leaves the state (still Error) and the rest of the
orchestrator unchanged.  There is still no silent auto-restart out of
Error; a fresh session can only be started once the state has returned to
Idle. -/
theorem C4_error_state_recovery_amended (m : Mgr) (hasApiKey : Bool)
    (freshId : Nat) (startOk : Bool) (now : Nat) (h : m.state = .error) :
    startSession m hasApiKey freshId startOk now =
      (.error (.invalidState .error), m) := by
  have hne : m.state ≠ .idle := by rw [h]; decide
  rw [startSession_not_idle m hasApiKey freshId startOk now hne, h]

/-- C4, witness: the amended theorem applied to a concrete Error-state
orchestrator. -/
theorem C4_error_state_recovery_amended_witness :
    startSession errorMgrW true 11 false 600 =
      (.error (.invalidState .error), errorMgrW) :=
  C4_error_state_recovery_amended errorMgrW true 11 false 600 rfl

/-- C5, counterexample.  As stated the claim is false about the conversion
rule: storing `clamped * 32767` into an `Int16Array` truncates toward
zero, it does not round.  At the sample 0.7 the code yields
`trunc(0.7 * 32767) = 22936`, while the claimed rule
`round(clamp(x,-1,1) * 32767)` yields 22937. -/
theorem C5_conversion_not_rounding :
    convertFloat32ToInt16 [7/10] = [22936] ∧ specRoundConvert [7/10] = [22937] := by
  constructor
  · show [int16SampleOf (7/10)] = [22936]
    norm_num [int16SampleOf, jsTruncQ, clampUnit, toInt16]
  · show [jsMathRound (clampUnit (7/10) * 32767)] = [22937]
    norm_num [jsMathRound, clampUnit]

/-- C5 (amended): the conversion truncates toward zero rather than
rounding, so the float samples `[1.0, -1.0, 0.0, 0.5]` convert to exactly
`[32767, -32767, 0, 16383]` (16383, not 16384, for 0.5); the conversion
preserves array length and acts samplewise, so position is preserved and
no other samples are altered. -/
theorem C5_conversion_amended :
    convertFloat32ToInt16 [1, -1, 0, 1/2] = [32767, -32767, 0, 16383] ∧
    (∀ l : List ℚ, (convertFloat32ToInt16 l).length = l.length) ∧
    (∀ (l : List ℚ) (i : Nat),
      (convertFloat32ToInt16 l)[i]? = l[i]?.map int16SampleOf) := by
  refine ⟨?_, length_convertFloat32ToInt16, ?_⟩
  · have h₁ : int16SampleOf 1 = 32767 := by
      norm_num [int16SampleOf, jsTruncQ, clampUnit, toInt16]
    have hc : ⌈(-32767 : ℚ)⌉ = (-32767 : ℤ) := by
      rw [show (-32767 : ℚ) = ((-32767 : ℤ) : ℚ) by norm_num, Int.ceil_intCast]
    have h₂ : int16SampleOf (-1) = -32767 := by
      norm_num [int16SampleOf, jsTruncQ, clampUnit, toInt16, hc]
    have h₃ : int16SampleOf 0 = 0 := by
      norm_num [int16SampleOf, jsTruncQ, clampUnit, toInt16]
    have h₄ : int16SampleOf (2⁻¹ : ℚ) = 16383 := by
      norm_num [int16SampleOf, jsTruncQ, clampUnit, toInt16]
    simp [convertFloat32ToInt16, h₁, h₂, h₃, h₄]
  · intro l i
    simp [convertFloat32ToInt16]

/-- C6: `startSession` called in any state other than Idle fails with the
`InvalidStateError` (`Cannot start session from state: ...`) and leaves
the orchestrator state — session state, session id, transcript, statistics,
configuration, transcriber — entirely unchanged. -/
theorem C6_startSession_guard (m : Mgr) (hasApiKey : Bool) (freshId : Nat)
    (startOk : Bool) (now : Nat) (h : m.state ≠ .idle) :
    startSession m hasApiKey freshId startOk now =
      (.error (.invalidState m.state), m) :=
  startSession_not_idle m hasApiKey freshId startOk now h

/-- C6, witness: the guard applied to a concrete Active-state
orchestrator. -/
theorem C6_startSession_guard_witness :
    startSession activeMgrSounds true 3 true 50 =
      (.error (.invalidState .active), activeMgrSounds) :=
  C6_startSession_guard activeMgrSounds true 3 true 50 (by decide)

/-- C7: on every inbound message, a non-empty interim transcript fully
replaces the current interim text (it never concatenates, and never
touches the final-segment list); a non-empty final transcript clears the
interim text; and whenever message handling takes a non-empty interim
text to empty, the message was a final `Results` message with non-empty
transcript and a final segment was appended — so the interim text is
cleared exactly when a final segment is appended.  Messages whose
transcript is empty, and `Metadata` or malformed messages, leave the
transcript untouched. -/
theorem C7_interim_replacement (tr : DgTranscript) :
    (∀ (t : JStr) (c : ℚ) (ts : Nat), t ≠ [] →
        (handleDeepgramMessage tr (.results t false c) ts).interim = t ∧
        (handleDeepgramMessage tr (.results t false c) ts).segments = tr.segments) ∧
    (∀ (t : JStr) (c : ℚ) (ts : Nat), t ≠ [] →
        (handleDeepgramMessage tr (.results t true c) ts).interim = []) ∧
    (∀ (m : DgMessage) (ts : Nat), tr.interim ≠ [] →
        (handleDeepgramMessage tr m ts).interim = [] →
        ∃ t c, m = .results t true c ∧ t ≠ [] ∧
          (handleDeepgramMessage tr m ts).segments = tr.segments ++ [⟨t, ts, true⟩]) ∧
    (∀ (isFinal : Bool) (c : ℚ) (ts : Nat),
        handleDeepgramMessage tr (.results [] isFinal c) ts = tr) ∧
    (∀ ts : Nat, handleDeepgramMessage tr .metadata ts = tr) := by
  refine ⟨?_, ?_, ?_, ?_, ?_⟩
  · intro t c ts ht
    simp [handleDeepgramMessage, addTranscriptSegment, ht]
  · intro t c ts ht
    simp [handleDeepgramMessage, addTranscriptSegment, ht]
  · intro m ts hint hcleared
    cases m with
    | results t isFinal c =>
        by_cases ht : t = []
        · subst ht
          rw [handleDeepgramMessage, if_neg (by simp)] at hcleared
          exact absurd hcleared hint
        · cases isFinal with
          | true =>
              refine ⟨t, c, rfl, ht, ?_⟩
              simp [handleDeepgramMessage, addTranscriptSegment, ht]
          | false =>
              have hred : (handleDeepgramMessage tr (.results t false c) ts).interim
                  = t := by
                simp [handleDeepgramMessage, addTranscriptSegment, ht]
              rw [hred] at hcleared
              exact absurd hcleared ht
    | metadata => exact absurd hcleared hint
    | malformed => exact absurd hcleared hint
  · intro isFinal c ts
    simp [handleDeepgramMessage]
  · intro ts
    rfl

/-- C7, witness: replacement and clearing applied to a concrete transcript
with a pending interim text. -/
theorem C7_interim_replacement_witness :
    (handleDeepgramMessage interimTrW (.results ['x', 'y'] false 1) 9).interim
      = ['x', 'y'] ∧
    (handleDeepgramMessage interimTrW (.results ['z'] true 1) 9).interim = [] :=
  ⟨((C7_interim_replacement interimTrW).1 ['x', 'y'] 1 9 (by decide)).1,
   (C7_interim_replacement interimTrW).2.1 ['z'] 1 9 (by decide)⟩

/-- C8: with the chunk-sized frames the `ScriptProcessorNode` delivers and
an empty processor buffer, (a) while the session is Paused an arriving
frame leaves the state untouched and nothing is transmitted; (b) while the
socket is not open nothing is transmitted and the buffer stays empty — the
frame is dropped, not retained for later transmission; (c) once the
session is Active with an open socket, a frame above the silence threshold
is converted and transmitted in full, so forwarding resumes exactly when
the Active/Connected condition is restored. -/
theorem C8_audio_gating (s : AudioPathState) (frame : List ℚ)
    (hbuf : s.buffer = []) (hlen : frame.length = CHUNK_SIZE) :
    (s.sessionStatus = .paused → processAudioData s frame = (s, [])) ∧
    (s.wsOpen = false → (processAudioData s frame).2 = [] ∧
        (processAudioData s frame).1.buffer = []) ∧
    (s.isRecording = true → s.sessionStatus = .active → s.wsOpen = true →
        containsSpeech frame = true →
        (processAudioData s frame).2 = [convertFloat32ToInt16 frame] ∧
        (processAudioData s frame).1.buffer = []) := by
  refine ⟨?_, ?_, ?_⟩
  · intro hp
    simp [processAudioData, hp]
  · intro hws
    by_cases hlive : s.isRecording = true ∧ s.sessionStatus = .active
    · by_cases hsp : containsSpeech frame = true
      · rw [processAudioData_live s frame hbuf hlen hlive.1 hlive.2 hsp, hws]
        exact ⟨rfl, rfl⟩
      · simp [processAudioData, hlive.1, hlive.2, hsp, hbuf]
    · constructor
      · simp [processAudioData, hlive]
      · simp [processAudioData, hlive, hbuf]
  · intro hrec hact hws hsp
    rw [processAudioData_live s frame hbuf hlen hrec hact hsp, hws]
    exact ⟨rfl, rfl⟩

/-- C8, witness: the gating theorem applied to concrete paused,
disconnected and live states with full-size frames. -/
theorem C8_audio_gating_witness :
    processAudioData pausedAudioW silentFrameW = (pausedAudioW, []) ∧
    (processAudioData activeClosedAudioW silentFrameW).2 = [] ∧
    (processAudioData activeClosedAudioW silentFrameW).1.buffer = [] ∧
    (processAudioData activeOpenAudioW loudFrameW).2 =
      [convertFloat32ToInt16 loudFrameW] :=
  ⟨(C8_audio_gating pausedAudioW silentFrameW rfl length_silentFrameW).1 rfl,
   ((C8_audio_gating activeClosedAudioW silentFrameW rfl length_silentFrameW).2.1 rfl).1,
   ((C8_audio_gating activeClosedAudioW silentFrameW rfl length_silentFrameW).2.1 rfl).2,
   ((C8_audio_gating activeOpenAudioW loudFrameW rfl length_loudFrameW).2.2 rfl rfl rfl
      containsSpeech_loudFrameW).1⟩

/-- C9: re-parsing the JSON value that `exportTranscript('json')` passes
to `JSON.stringify` (whose `stringify`/`parse` pair is the identity on
this value domain) recovers exactly the `transcript` string and the
ordered final-segment list — same texts, timestamps and confidences in
the same order — held in memory at export time. -/
theorem C9_export_roundtrip (m : Mgr) (now : Nat) :
    decodeExport (exportTranscriptJson m now) =
      some (m.transcript.full, m.transcript.final) := by
  have h₁ : ¬ (kTranscript = kSegments) := by decide
  have h₂ : ¬ (kMetadata = kSegments) := by decide
  simp only [decodeExport, exportTranscriptJson, jlookup, if_pos rfl, if_neg h₁,
    if_neg h₂, if_true, eq_self_iff_true, mapM_decodeSegment]

/-- C10: when `startSession`, invoked from Idle with a configured key,
fails because the transcriber fails to start, the transcript (interim
text, final-segment list, full text) and the statistics from before the
call are left exactly unchanged, while the state becomes Error, the
freshly generated session id has been assigned, and the call rejects
(with the original start failure, or with the `ReferenceError` that
`#handleError`'s `playSound` call raises when sounds are enabled).  Only
when the transcriber starts successfully are the transcript and
statistics reset, with `startTime` set to the current time and the state
Active. -/
theorem C10_start_failure_frame (m : Mgr) (freshId : Nat) (now : Nat)
    (h : m.state = .idle) :
    ((startSession m true freshId false now).2.transcript = m.transcript ∧
     (startSession m true freshId false now).2.stats = m.stats ∧
     (startSession m true freshId false now).2.state = .error ∧
     (startSession m true freshId false now).2.sessionId = some freshId ∧
     (startSession m true freshId false now).1 =
       .error (if m.enableSounds then .refErrorPlaySound
               else .transcriberStartFailure)) ∧
    ((startSession m true freshId true now).2.transcript = emptyMgrTranscript ∧
     (startSession m true freshId true now).2.stats =
       { initialMgrStats with startTime := some now } ∧
     (startSession m true freshId true now).2.state = .active ∧
     (startSession m true freshId true now).1 = .ok freshId) := by
  have hni : ¬ (m.state ≠ .idle) := by simp [h]
  constructor
  · by_cases hs : m.enableSounds
    · simp [startSession, hni, handleError, setState, hs]
    · simp [startSession, hni, handleError, setState, hs]
  · simp [startSession, hni, setState]

/-- C10, witness: a failing and a succeeding start from a concrete Idle
orchestrator that still holds the previous session's data. -/
theorem C10_start_failure_frame_witness :
    (startSession dirtyIdleMgrW true 42 false 900).2.transcript =
      dirtyIdleMgrW.transcript ∧
    (startSession dirtyIdleMgrW true 42 false 900).2.stats = dirtyIdleMgrW.stats ∧
    (startSession dirtyIdleMgrW true 42 false 900).2.state = .error ∧
    (startSession dirtyIdleMgrW true 42 false 900).2.sessionId = some 42 ∧
    (startSession dirtyIdleMgrW true 42 true 900).1 = .ok 42 :=
  ⟨((C10_start_failure_frame dirtyIdleMgrW 42 900 rfl).1).1,
   ((C10_start_failure_frame dirtyIdleMgrW 42 900 rfl).1).2.1,
   ((C10_start_failure_frame dirtyIdleMgrW 42 900 rfl).1).2.2.1,
   ((C10_start_failure_frame dirtyIdleMgrW 42 900 rfl).1).2.2.2.1,
   ((C10_start_failure_frame dirtyIdleMgrW 42 900 rfl).2).2.2.2⟩

